import Mathlib

/-!
Verification development for the `zomboid_server_helper` repository.

The definitions below are a shallow embedding of the repository's Python code:

* `src/bot.py` — the Telegram voting flow (`add_mod` poll creation,
  `receive_poll_answer`, `stop_poll_by_time`).  Chat transport effects
  (messages, poll stop/delete, the mod install pipeline trigger) are recorded
  as an explicit list of `BotAction`s; the scheduler's job queue is a list of
  named one-shot jobs; the module-level `polls` dict and `context.bot_data`
  are association lists.  Python dict semantics (insertion order kept,
  assignment to an existing key updates in place) are mirrored by `dictInsert`;
  an uncaught Python exception (`KeyError`, `IndexError`, `TypeError`) is
  modelled by an `Option`/`exn` result.
* `src/zomboid_misc/mod_manager/_mod_graph.py` — `ZomboidModGraph` with its
  igraph vertex/edge lists, `update_by_metadata`, `_build_graph`,
  `save`/`load` (metadata artifact), and `get_dependents`.
* `src/zomboid_misc/mod_manager/zomboid_mod_manager.py` — `get_required_mod` /
  `_request_required_mod` (network fetches are an oracle from URL and attempt
  number to a fetched page or a timeout), `add_to_config`, `delete_mod`,
  `get_workshop_id`.
-/

/-! ## Association-list model of Python `dict` -/

/-- Lookup in an association list: the value bound to the first occurrence of
the key, mirroring access to a Python `dict` entry. -/
def alookup (k : String) : List (String × α) → Option α
  | [] => none
  | (k', v) :: rest => if k' = k then some v else alookup k rest

/-- Python `d[k] = v`: update the first binding of `k` in place if present,
otherwise append a new binding at the end (dicts keep insertion order). -/
def dictInsert (k : String) (v : α) : List (String × α) → List (String × α)
  | [] => [(k, v)]
  | (k', v') :: rest =>
    if k' = k then (k, v) :: rest else (k', v') :: dictInsert k v rest

theorem alookup_dictInsert_self (k : String) (v : α) (l : List (String × α)) :
    alookup k (dictInsert k v l) = some v := by
  induction l with
  | nil => simp [alookup, dictInsert]
  | cons p rest ih =>
    obtain ⟨k', v'⟩ := p
    by_cases h : k' = k <;> simp [alookup, dictInsert, h, ih]

theorem alookup_dictInsert_ne (k k' : String) (hk : k' ≠ k) (v : α)
    (l : List (String × α)) :
    alookup k (dictInsert k' v l) = alookup k l := by
  induction l with
  | nil => simp [alookup, dictInsert, hk]
  | cons p rest ih =>
    obtain ⟨k₀, v₀⟩ := p
    by_cases h : k₀ = k'
    · subst h
      simp [alookup, dictInsert, hk]
    · have hk' : k ≠ k' := fun hc => hk hc.symm
      by_cases h2 : k₀ = k <;> simp [alookup, dictInsert, h, h2, hk', ih]

theorem dictInsert_self (k : String) (v : α) (l : List (String × α))
    (h : alookup k l = some v) : dictInsert k v l = l := by
  induction l with
  | nil => simp [alookup] at h
  | cons p rest ih =>
    obtain ⟨k', v'⟩ := p
    by_cases hk : k' = k
    · subst hk
      simp [alookup] at h
      simp [dictInsert, h]
    · simp [alookup, hk] at h
      simp [dictInsert, hk, ih h]

/-! ## Bot voting state (`src/bot.py`) -/

/-- One entry of `context.bot_data`, the `payload` built in `add_mod`:
`{"questions", "message_id", "chat_id", "answers", "mod_url",
"poll_end_time"}`.  Times are absolute seconds. -/
structure PollData where
  questions : List String
  message_id : Nat
  chat_id : Nat
  answers : Nat
  mod_url : String
  poll_end_time : Nat
deriving DecidableEq, Repr

/-- A one-shot job on `context.job_queue` (`run_once`): its `name`, its
`data` (the poll id it was created for) and the absolute time it fires at. -/
structure SchedJob where
  name : String
  data : String
  runAt : Nat
deriving DecidableEq, Repr

/-- The bot's mutable state: the module-level `polls` tally dict
(poll id → option label → count), `context.bot_data`, and the job queue. -/
structure BotState where
  polls : List (String × List (String × Nat))
  bot_data : List (String × PollData)
  jobs : List SchedJob
deriving DecidableEq, Repr

/-- An incoming `PollAnswer` update: poll id, the answering user's id, and
the chosen option indices. -/
structure VoteEvent where
  pollId : String
  voterId : Nat
  optionIds : List Nat
deriving DecidableEq, Repr

/-- Observable side effects of the bot handlers.  `resolveAndInstall` stands
for the approved-outcome pipeline (`get_required_mod` followed by
`add_to_config`). -/
inductive BotAction where
  | stopPoll (chatId msgId : Nat)
  | deleteMessage (chatId msgId : Nat)
  | sendMessage (chatId : Nat) (text : String)
  | resolveAndInstall (modUrl : String)
deriving DecidableEq, Repr

/-- The answer-string loop of `receive_poll_answer`: joins the chosen
question labels with `" dan "`, comparing each index against the last
element of `selected_options`.  `none` models an `IndexError` on
`questions[question_id]`. -/
def buildAnswerString (qs : List String) (ids : List Nat) : Option String :=
  ids.foldl
    (fun acc qid =>
      match acc, qs.get? qid with
      | some s, some q =>
        if ids.getLast? = some qid then some (s ++ q) else some (s ++ q ++ " dan ")
      | _, _ => none)
    (some "")

/-- The poll-creation tail of `add_mod` (`src/bot.py` lines 144-174): build
the payload with deadline `now + 3600`, initialise the tally for both labels
to `0`, and schedule a `"poll_stopper"` job for 3600 s. -/
def addModCreate (now chatId msgId : Nat) (pollId modUrl : String)
    (st : BotState) : BotState :=
  let payload : PollData :=
    ⟨["Setuju", "Tidak Setuju"], msgId, chatId, 0, modUrl, now + 3600⟩
  { polls := dictInsert pollId [("Setuju", 0), ("Tidak Setuju", 0)] st.polls
    bot_data := dictInsert pollId payload st.bot_data
    jobs := st.jobs ++ [⟨"poll_stopper", pollId, now + 3600⟩] }

/-- `receive_poll_answer` (`src/bot.py` lines 248-338), parameterised by the
configured quorum `Q` (`MINIMUM_AGREE_MEMBERS_FOR_MOD`) and the current time.
Returns `none` when the Python code would raise an uncaught exception
(missing poll id, bad option index, missing tally label).  The hard cap `5`
is the literal from the source. -/
def receivePollAnswer (Q now : Nat) (st : BotState) (ev : VoteEvent) :
    Option (BotState × List BotAction) :=
  match st.bot_data |> alookup ev.pollId with
  | none => none
  | some ap =>
    match buildAnswerString ap.questions ev.optionIds with
    | none => none
    | some answerString =>
      match st.polls |> alookup ev.pollId with
      | none => none
      | some tally =>
        match tally |> alookup answerString with
        | none => none
        | some cnt =>
          let tally' := dictInsert answerString (cnt + 1) tally
          let polls' := dictInsert ev.pollId tally' st.polls
          let mentionAct := BotAction.sendMessage ap.chat_id
            (toString ev.voterId ++ " " ++ answerString.toLower ++ "!")
          let ap' : PollData := { ap with answers := ap.answers + 1 }
          let botData' := dictInsert ev.pollId ap' st.bot_data
          if ap'.answers = Q then
            let jobs1 := st.jobs.filter (fun j => j.name ≠ "poll_stopper")
            let botData2 :=
              dictInsert ev.pollId { ap' with poll_end_time := now + 1800 } botData'
            some
              (⟨polls', botData2, jobs1 ++ [⟨"poll_stopper", ev.pollId, now + 1800⟩]⟩,
               [mentionAct,
                BotAction.sendMessage ap.chat_id
                  "Setengah dari anggota grub telah voting, polling akan ditutup 30 menit lagi!"])
          else if ap'.answers = 5 then
            let acts0 := [mentionAct,
              BotAction.stopPoll ap.chat_id ap.message_id,
              BotAction.deleteMessage ap.chat_id ap.message_id]
            let jobs1 := st.jobs.filter (fun j => j.name ≠ "poll_stopper")
            match tally' |> alookup "Setuju", tally' |> alookup "Tidak Setuju" with
            | some nAgree, some nDisagree =>
              if nDisagree < nAgree then
                some
                  (⟨polls', botData', jobs1⟩,
                   acts0 ++
                     [BotAction.sendMessage ap.chat_id
                        "Voting berakhir dan mayoritas menyetujui mod tersebut!",
                      BotAction.sendMessage ap.chat_id "Mod akan diinstall!",
                      BotAction.resolveAndInstall ap.mod_url,
                      BotAction.sendMessage ap.chat_id "Mod berhasil ditambahkan."])
              else
                some
                  (⟨polls', botData', jobs1⟩,
                   acts0 ++
                     [BotAction.sendMessage ap.chat_id
                        "Voting berakhir dan mayoritas tidak menyetujui mod tersebut!"])
            | _, _ => none
          else
            some (⟨polls', botData', st.jobs⟩, [mentionAct])

/-- `stop_poll_by_time` (`src/bot.py` lines 188-245): the timer callback.
`bot_data.get(data, {})` means a missing poll id silently does nothing; a
missing tally dict or label is an uncaught `KeyError` (`none`).  The timer
path announces and installs only on approval; it sends nothing on a
rejected outcome. -/
def stopPollByTime (now : Nat) (st : BotState) (jobData : String) :
    Option (BotState × List BotAction) :=
  match st.bot_data |> alookup jobData with
  | none => some (st, [])
  | some ap =>
    if ap.poll_end_time ≤ now then
      match st.polls |> alookup jobData with
      | none => none
      | some tally =>
        match tally |> alookup "Setuju", tally |> alookup "Tidak Setuju" with
        | some nAgree, some nDisagree =>
          let acts0 := [BotAction.stopPoll ap.chat_id ap.message_id,
            BotAction.deleteMessage ap.chat_id ap.message_id]
          if nDisagree < nAgree then
            some (st,
              acts0 ++
                [BotAction.sendMessage ap.chat_id
                   "Voting berakhir dan mayoritas menyetujui Mod tersebut!",
                 BotAction.sendMessage ap.chat_id "Mod akan diinstall!",
                 BotAction.resolveAndInstall ap.mod_url,
                 BotAction.sendMessage ap.chat_id "Mod berhasil ditambahkan."])
          else
            some (st, acts0)
        | _, _ => none
    else
      some (st, [])

/-- State component of a `receive_poll_answer` run (`st` itself if the run
raised). -/
def rpaState (Q now : Nat) (st : BotState) (ev : VoteEvent) : BotState :=
  ((receivePollAnswer Q now st ev).map Prod.fst).getD st

/-- Action list of a `receive_poll_answer` run (empty if the run raised). -/
def rpaActs (Q now : Nat) (st : BotState) (ev : VoteEvent) : List BotAction :=
  ((receivePollAnswer Q now st ev).map Prod.snd).getD []

/-- Action list of a `stop_poll_by_time` run (empty if the run raised). -/
def sptActs (now : Nat) (st : BotState) (jobData : String) : List BotAction :=
  ((stopPollByTime now st jobData).map Prod.snd).getD []

/-- Whether the action list triggers the resolution/install pipeline. -/
def hasInstall (acts : List BotAction) : Bool :=
  acts.any fun a => match a with
    | BotAction.resolveAndInstall _ => true
    | _ => false

/-- Whether the action list stops the poll (session closure). -/
def hasStopPoll (acts : List BotAction) : Bool :=
  acts.any fun a => match a with
    | BotAction.stopPoll _ _ => true
    | _ => false

/-! ## Concrete voting fixtures used by witnesses and counterexamples -/

/-- A freshly created poll `"p"` (chat 11, message 22, mod url `"u"`),
opened at time 0. -/
def stOne : BotState := addModCreate 0 11 22 "p" "u" ⟨[], [], []⟩

/-- A poll at its original deadline with tally 2 Agree / 1 Disagree. -/
def stTimerClose : BotState :=
  ⟨[("p", [("Setuju", 2), ("Tidak Setuju", 1)])],
   [("p", ⟨["Setuju", "Tidak Setuju"], 22, 11, 3, "u", 3600⟩)],
   []⟩

/-- A poll that has already counted 4 answers (all Agree). -/
def stFour : BotState :=
  ⟨[("p", [("Setuju", 4), ("Tidak Setuju", 0)])],
   [("p", ⟨["Setuju", "Tidak Setuju"], 22, 11, 4, "u", 3600⟩)],
   [⟨"poll_stopper", "p", 3600⟩]⟩

/-- Two concurrently open polls `"p"` and `"q"`, each with its own
`"poll_stopper"` deadline timer. -/
def stTwo : BotState :=
  ⟨[("p", [("Setuju", 0), ("Tidak Setuju", 0)]),
    ("q", [("Setuju", 0), ("Tidak Setuju", 0)])],
   [("p", ⟨["Setuju", "Tidak Setuju"], 22, 11, 0, "u", 3600⟩),
    ("q", ⟨["Setuju", "Tidak Setuju"], 23, 11, 0, "w", 3600⟩)],
   [⟨"poll_stopper", "p", 3600⟩, ⟨"poll_stopper", "q", 3600⟩]⟩

/-! ## Claims about the voting flow -/

/-- C1: at close time (both the deadline-timer path and the hard-cap path)
the outcome is Approved — the resolution/install pipeline fires — if and
only if the Agree tally strictly exceeds the Disagree tally; otherwise
(ties included) no install is triggered. -/
theorem C1_outcome_approved_iff :
    (∀ (now : Nat) (st : BotState) (pid : String) (ap : PollData)
       (tally : List (String × Nat)) (a d : Nat),
       alookup pid st.bot_data = some ap →
       ap.poll_end_time ≤ now →
       alookup pid st.polls = some tally →
       alookup "Setuju" tally = some a →
       alookup "Tidak Setuju" tally = some d →
       (hasInstall (sptActs now st pid) = true ↔ d < a)) ∧
    (∀ (Q now : Nat) (st : BotState) (ev : VoteEvent) (ap : PollData)
       (lbl : String) (tally : List (String × Nat)) (c a d : Nat),
       alookup ev.pollId st.bot_data = some ap →
       buildAnswerString ap.questions ev.optionIds = some lbl →
       alookup ev.pollId st.polls = some tally →
       alookup lbl tally = some c →
       ap.answers + 1 = 5 →
       Q ≠ 5 →
       alookup "Setuju" (dictInsert lbl (c + 1) tally) = some a →
       alookup "Tidak Setuju" (dictInsert lbl (c + 1) tally) = some d →
       (hasInstall (rpaActs Q now st ev) = true ↔ d < a)) := by
  constructor
  · intro now st pid ap tally a d h1 h2 h3 h4 h5
    unfold sptActs stopPollByTime
    rw [h1]
    simp only [if_pos h2, h3, h4, h5]
    by_cases hda : d < a <;> simp [hda, hasInstall]
  · intro Q now st ev ap lbl tally c a d h1 h2 h3 h4 hcap hQ ha hd
    unfold rpaActs receivePollAnswer
    rw [h1]
    simp only [h2, h3, h4]
    have h5 : ¬(ap.answers + 1 = Q) := by omega
    have h6 : ap.answers + 1 = 5 := hcap
    have h7 : ¬(5 = Q) := fun h => hQ h.symm
    simp only [h5, if_false, h6, if_true, ha, hd]
    by_cases hda : d < a <;> simp [hda, hasInstall, h7]

/-- Witness for C1 at a concrete closing poll (2 Agree, 1 Disagree, timer
path at the deadline). -/
theorem C1_outcome_approved_iff_witness :
    hasInstall (sptActs 3600 stTimerClose "p") = true ↔ 1 < 2 :=
  C1_outcome_approved_iff.1 3600 stTimerClose "p"
    ⟨["Setuju", "Tidak Setuju"], 22, 11, 3, "u", 3600⟩
    [("Setuju", 2), ("Tidak Setuju", 1)] 2 1
    (by decide) (by decide) (by decide) (by decide) (by decide)

/-- C2 counterexample: the handler has no voter-identity dedup.  Two vote
events carrying the same voter id 7 for poll `"p"` are both counted: the
Agree tally goes 1 after the first and 2 after the second, so the repeated
voter's event does not leave the tally unchanged. -/
theorem C2_counterexample :
    alookup "Setuju"
        ((alookup "p" (rpaState 10 5 stOne ⟨"p", 7, [0]⟩).polls).getD [])
      = some 1 ∧
    alookup "Setuju"
        ((alookup "p"
          (rpaState 10 6 (rpaState 10 5 stOne ⟨"p", 7, [0]⟩) ⟨"p", 7, [0]⟩).polls).getD [])
      = some 2 := by
  decide

/-- C2 (amended): every successfully processed vote event increments the
chosen label's tally by exactly one, regardless of the voter id — the code
keeps no per-session voter set, so deduplication rests entirely on the
transport delivering at most one answer event per voter. -/
theorem C2_amended_unconditional_count (Q now : Nat) (st : BotState)
    (ev : VoteEvent) (ap : PollData) (lbl : String)
    (tally : List (String × Nat)) (c a d : Nat)
    (h1 : alookup ev.pollId st.bot_data = some ap)
    (h2 : buildAnswerString ap.questions ev.optionIds = some lbl)
    (h3 : alookup ev.pollId st.polls = some tally)
    (h4 : alookup lbl tally = some c)
    (ha : alookup "Setuju" (dictInsert lbl (c + 1) tally) = some a)
    (hd : alookup "Tidak Setuju" (dictInsert lbl (c + 1) tally) = some d) :
    alookup ev.pollId (rpaState Q now st ev).polls
      = some (dictInsert lbl (c + 1) tally) := by
  unfold rpaState receivePollAnswer
  rw [h1]
  simp only [h2, h3, h4]
  by_cases hq : ap.answers + 1 = Q
  · simp [hq, alookup_dictInsert_self]
  · by_cases hc : ap.answers + 1 = 5
    · have h7 : ¬(5 = Q) := by omega
      simp only [hq, if_false, hc, if_true, ha, hd, h7]
      by_cases hda : d < a <;> simp [hda, h7, alookup_dictInsert_self]
    · simp [hq, hc, alookup_dictInsert_self]

/-- Witness for the amended C2 at a concrete first vote on a fresh poll. -/
theorem C2_amended_witness :
    alookup "p" (rpaState 10 5 stOne ⟨"p", 7, [0]⟩).polls
      = some [("Setuju", 1), ("Tidak Setuju", 0)] :=
  C2_amended_unconditional_count 10 5 stOne ⟨"p", 7, [0]⟩
    ⟨["Setuju", "Tidak Setuju"], 22, 11, 0, "u", 3600⟩ "Setuju"
    [("Setuju", 0), ("Tidak Setuju", 0)] 0 1 0
    (by decide) (by decide) (by decide) (by decide) (by decide) (by decide)

/-- C3 counterexample: quorum `Q = 1` is reached at `t = 2000` on a poll
opened at `t = 0` with deadline `T = 3600`.  The code replaces the deadline
by `now + 1800 = 3800`, which is **later** than `T`, refuting the claim
that the new deadline `T'` always satisfies `T' < T`. -/
theorem C3_counterexample :
    (alookup "p" stOne.bot_data).map PollData.poll_end_time = some 3600 ∧
    (alookup "p" (rpaState 1 2000 stOne ⟨"p", 7, [0]⟩).bot_data).map
        PollData.poll_end_time = some 3800 ∧
    ¬(3800 < 3600) := by
  decide

/-- C3 (amended): when the counted total reaches `Q`, the deadline is
replaced by `now + 1800` (which is strictly earlier than the old deadline
only when quorum arrives more than 1800 s before it), every scheduled
`"poll_stopper"` timer is cancelled, and a single new timer for
`now + 1800` is scheduled. -/
theorem C3_amended_quorum_window (Q now : Nat) (st : BotState)
    (ev : VoteEvent) (ap : PollData) (lbl : String)
    (tally : List (String × Nat)) (c : Nat)
    (h1 : alookup ev.pollId st.bot_data = some ap)
    (h2 : buildAnswerString ap.questions ev.optionIds = some lbl)
    (h3 : alookup ev.pollId st.polls = some tally)
    (h4 : alookup lbl tally = some c)
    (hq : ap.answers + 1 = Q) :
    alookup ev.pollId (rpaState Q now st ev).bot_data
      = some { ap with answers := ap.answers + 1, poll_end_time := now + 1800 } ∧
    (rpaState Q now st ev).jobs
      = st.jobs.filter (fun j => j.name ≠ "poll_stopper")
        ++ [⟨"poll_stopper", ev.pollId, now + 1800⟩] := by
  unfold rpaState receivePollAnswer
  rw [h1]
  simp only [h2, h3, h4, hq, if_pos]
  exact ⟨alookup_dictInsert_self _ _ _, rfl⟩

/-- Witness for the amended C3: quorum 1 reached at `t = 100` on the fresh
poll; deadline becomes 1900 and the sole timer is replaced. -/
theorem C3_amended_witness :
    alookup "p" (rpaState 1 100 stOne ⟨"p", 7, [0]⟩).bot_data
      = some ⟨["Setuju", "Tidak Setuju"], 22, 11, 1, "u", 1900⟩ ∧
    (rpaState 1 100 stOne ⟨"p", 7, [0]⟩).jobs
      = [⟨"poll_stopper", "p", 1900⟩] :=
  C3_amended_quorum_window 1 100 stOne ⟨"p", 7, [0]⟩
    ⟨["Setuju", "Tidak Setuju"], 22, 11, 0, "u", 3600⟩ "Setuju"
    [("Setuju", 0), ("Tidak Setuju", 0)] 0
    (by decide) (by decide) (by decide) (by decide) (by decide)

/-- C4 counterexample: with the quorum threshold configured to 5 — the same
value as the hard-coded cap — the 5th counted vote takes the quorum `if`
branch (the cap check is an `elif`), so the session is *not* closed: no
stop-poll action is emitted, a fresh deadline timer for `now + 1800` stays
scheduled, and the poll remains live with 5 counted answers. -/
theorem C4_counterexample :
    hasStopPoll (rpaActs 5 200 stFour ⟨"p", 9, [0]⟩) = false ∧
    (rpaState 5 200 stFour ⟨"p", 9, [0]⟩).jobs = [⟨"poll_stopper", "p", 2000⟩] ∧
    (alookup "p" (rpaState 5 200 stFour ⟨"p", 9, [0]⟩).bot_data).map
        PollData.answers = some 5 := by
  decide

/-- C4 (amended): the hard cap is the fixed literal 5, and reaching it closes
the session immediately — the poll is stopped and every deadline timer is
cancelled — provided the configured quorum threshold is not itself 5 (the
quorum branch shadows the cap branch). -/
theorem C4_amended_cap_closes (Q now : Nat) (st : BotState) (ev : VoteEvent)
    (ap : PollData) (lbl : String) (tally : List (String × Nat)) (c a d : Nat)
    (h1 : alookup ev.pollId st.bot_data = some ap)
    (h2 : buildAnswerString ap.questions ev.optionIds = some lbl)
    (h3 : alookup ev.pollId st.polls = some tally)
    (h4 : alookup lbl tally = some c)
    (hcap : ap.answers + 1 = 5)
    (hQ : Q ≠ 5)
    (ha : alookup "Setuju" (dictInsert lbl (c + 1) tally) = some a)
    (hd : alookup "Tidak Setuju" (dictInsert lbl (c + 1) tally) = some d) :
    hasStopPoll (rpaActs Q now st ev) = true ∧
    (rpaState Q now st ev).jobs
      = st.jobs.filter (fun j => j.name ≠ "poll_stopper") := by
  have h5 : ¬(ap.answers + 1 = Q) := by omega
  have h7 : ¬(5 = Q) := fun h => hQ h.symm
  constructor
  · unfold rpaActs receivePollAnswer
    rw [h1]
    simp only [h2, h3, h4, h5, if_false, hcap, if_true, ha, hd]
    by_cases hda : d < a <;> simp [hda, h7, hasStopPoll]
  · unfold rpaState receivePollAnswer
    rw [h1]
    simp only [h2, h3, h4, h5, if_false, hcap, if_true, ha, hd]
    by_cases hda : d < a <;> simp [hda, h7]

/-- Witness for the amended C4: quorum 3 (already passed), 5th answer
arrives on `stFour` and the session closes at once. -/
theorem C4_amended_witness :
    hasStopPoll (rpaActs 3 200 stFour ⟨"p", 9, [0]⟩) = true ∧
    (rpaState 3 200 stFour ⟨"p", 9, [0]⟩).jobs
      = stFour.jobs.filter (fun j => j.name ≠ "poll_stopper") :=
  C4_amended_cap_closes 3 200 stFour ⟨"p", 9, [0]⟩
    ⟨["Setuju", "Tidak Setuju"], 22, 11, 4, "u", 3600⟩ "Setuju"
    [("Setuju", 4), ("Tidak Setuju", 0)] 4 5 0
    (by decide) (by decide) (by decide) (by decide) (by decide) (by decide)
    (by decide) (by decide)

/-- C10: when a poll's counted total reaches the quorum threshold or the
hard cap, every job named `"poll_stopper"` is removed — including the
deadline timer of any *other* live poll, because all polls schedule their
timer under that one shared name.  Any scheduled `"poll_stopper"` job whose
`data` is a different poll id is gone from the queue afterwards. -/
theorem C10_timer_removal_not_scoped (Q now : Nat) (st : BotState)
    (ev : VoteEvent) (ap : PollData) (lbl : String)
    (tally : List (String × Nat)) (c a d : Nat)
    (h1 : alookup ev.pollId st.bot_data = some ap)
    (h2 : buildAnswerString ap.questions ev.optionIds = some lbl)
    (h3 : alookup ev.pollId st.polls = some tally)
    (h4 : alookup lbl tally = some c)
    (ha : alookup "Setuju" (dictInsert lbl (c + 1) tally) = some a)
    (hd : alookup "Tidak Setuju" (dictInsert lbl (c + 1) tally) = some d)
    (hbranch : ap.answers + 1 = Q ∨ (ap.answers + 1 = 5 ∧ Q ≠ 5))
    (j : SchedJob) (hj : j ∈ st.jobs) (hname : j.name = "poll_stopper")
    (hdata : j.data ≠ ev.pollId) :
    j ∉ (rpaState Q now st ev).jobs := by
  rcases hbranch with hq | ⟨hcap, hQ⟩
  · unfold rpaState receivePollAnswer
    rw [h1]
    simp only [h2, h3, h4, hq, if_pos]
    intro hmem
    simp at hmem
    rcases hmem with ⟨_, hpred⟩ | hnew
    · exact hpred hname
    · rw [hnew] at hdata
      exact hdata rfl
  · have h5 : ¬(ap.answers + 1 = Q) := by omega
    have h7 : ¬(5 = Q) := fun h => hQ h.symm
    unfold rpaState receivePollAnswer
    rw [h1]
    simp only [h2, h3, h4, h5, if_false, hcap, if_true, ha, hd]
    by_cases hda : d < a <;>
      · simp only [hda, if_true, if_false, h7, Option.map_some,
          Option.getD_some]
        intro hmem
        simp at hmem
        exact hmem.2 hname

/-- Witness for C10: on the two-poll state, poll `"p"` reaching quorum 1
removes poll `"q"`'s deadline timer from the queue. -/
theorem C10_witness :
    (⟨"poll_stopper", "q", 3600⟩ : SchedJob)
      ∉ (rpaState 1 100 stTwo ⟨"p", 7, [0]⟩).jobs :=
  C10_timer_removal_not_scoped 1 100 stTwo ⟨"p", 7, [0]⟩
    ⟨["Setuju", "Tidak Setuju"], 22, 11, 0, "u", 3600⟩ "Setuju"
    [("Setuju", 0), ("Tidak Setuju", 0)] 0 1 0
    (by decide) (by decide) (by decide) (by decide) (by decide) (by decide)
    (Or.inl (by decide)) ⟨"poll_stopper", "q", 3600⟩ (by decide) (by decide)
    (by decide)

/-! ## Mod dependency graph (`src/zomboid_misc/mod_manager/_mod_graph.py`) -/

/-- An igraph vertex of `ZomboidModGraph.graph` with its four attributes
(`name`, `mod_name`, `url`, `mod_id`). -/
structure GVertex where
  name : String
  mod_name : String
  url : String
  mod_id : List String
deriving DecidableEq, Repr

/-- The directed igraph: vertex list (index = igraph vertex id) and directed
edge list over vertex indices. -/
structure MGraph where
  vs : List GVertex
  es : List (Nat × Nat)
deriving DecidableEq, Repr

/-- One mod's metadata dict as stored in `mod_data` / produced by
`_request_required_mod`: `{"url", "mod_name", "workshop_id", "mod_id"}` plus
the `"required"` list (`[]` models the key being absent, matching every
`data.get("required", [])` read in the source). -/
structure ModData where
  url : String
  mod_name : String
  workshop_id : String
  mod_id : List String
  required : List String
deriving DecidableEq, Repr

/-- `ZomboidModGraph`: the igraph plus the `mod_data` dict. -/
structure ZMG where
  graph : MGraph
  mod_data : List (String × ModData)
deriving DecidableEq, Repr

/-- Names of all vertices, `self.graph.vs["name"]`. -/
def namesOf (vs : List GVertex) : List String := vs.map (·.name)

/-- `self.graph.vs.find(name=n).index`: index of the first vertex named
`n`. -/
def findIdxName (vs : List GVertex) (n : String) : Option Nat :=
  match vs with
  | [] => none
  | v :: rest =>
    if v.name = n then some 0 else (findIdxName rest n).map (· + 1)

/-- `self.graph.vs.find(name=n)` itself: the first vertex named `n`. -/
def vertexAt (vs : List GVertex) (n : String) : Option GVertex :=
  match vs with
  | [] => none
  | v :: rest => if v.name = n then some v else vertexAt rest n

/-- Attribute assignment on the first vertex named `n`
(`v["mod_name"] = ...; v["url"] = ...; v["mod_id"] = ...`). -/
def setVertexAttrs (vs : List GVertex) (n : String) (d : ModData) :
    List GVertex :=
  match vs with
  | [] => []
  | v :: rest =>
    if v.name = n then
      { v with mod_name := d.mod_name, url := d.url, mod_id := d.mod_id } :: rest
    else
      v :: setVertexAttrs rest n d

/-- The stub-creation step of `update_by_metadata`'s inner loop:
`if dep_id not in existing_nodes: add_vertex(name=dep_id, mod_name="",
url="", mod_id=[])`. -/
def ensureStub (G : MGraph) (dep : String) : MGraph :=
  if dep ∈ namesOf G.vs then G
  else { G with vs := G.vs ++ [⟨dep, "", "", []⟩] }

/-- The edge-insertion step of `update_by_metadata`'s inner loop: resolve
both endpoint names to first indices, then
`if not are_connected(source_idx, target_idx): add_edge`. -/
def edgeCore (G1 : MGraph) (wid dep : String) : MGraph :=
  match findIdxName G1.vs wid, findIdxName G1.vs dep with
  | some si, some ti =>
    if (si, ti) ∈ G1.es then G1 else { G1 with es := G1.es ++ [(si, ti)] }
  | _, _ => G1

/-- The per-dependency body of `update_by_metadata`'s inner loop: add a stub
vertex for `dep` if absent, then add the edge `wid → dep` unless
`are_connected` already holds. -/
def addEdgeFor (G : MGraph) (wid dep : String) : MGraph :=
  edgeCore (ensureStub G dep) wid dep

/-- One iteration of `update_by_metadata`'s outer loop for the batch entry
`(wid, d)`: store the metadata, insert or update the vertex, then process
the `required` list. -/
def stepEntry (g : ZMG) (wid : String) (d : ModData) : ZMG :=
  let md := dictInsert wid d g.mod_data
  let G0 := g.graph
  let G1 :=
    if wid ∈ namesOf G0.vs then { G0 with vs := setVertexAttrs G0.vs wid d }
    else
      { G0 with vs := G0.vs ++ [⟨wid, d.mod_name, d.url, d.mod_id⟩] }
  let G2 := d.required.foldl (fun G dep => addEdgeFor G wid dep) G1
  { graph := G2, mod_data := md }

/-- `update_by_metadata(new_mod_data)`: fold `stepEntry` over the batch in
iteration order. -/
def updateByMetadata (g : ZMG) (batch : List (String × ModData)) : ZMG :=
  batch.foldl (fun g p => stepEntry g p.1 p.2) g

/-- `_build_graph`: add a vertex per `mod_data` key (attributes filled from
the metadata via the `vs.find` loop), then add one edge per `required` entry
whose target is itself a `mod_data` key, resolving endpoint names to first
indices. -/
def buildGraph (md : List (String × ModData)) : MGraph :=
  let G0 : MGraph := ⟨md.map (fun p => ⟨p.1, "", "", []⟩), []⟩
  let G1 : MGraph :=
    { G0 with vs := md.foldl (fun vs p => setVertexAttrs vs p.1 p.2) G0.vs }
  let nameEdges :=
    md.foldl
      (fun acc p =>
        acc ++ (p.2.required.filter (fun req => (alookup req md).isSome)).map
          (fun req => (p.1, req)))
      []
  { G1 with
    es := nameEdges.map
      (fun e => ((findIdxName G1.vs e.1).getD 0, (findIdxName G1.vs e.2).getD 0)) }

/-- `save(meta_path=...)`: the metadata artifact is written only when
`self.mod_data` is truthy (`if meta_path and self.mod_data`); `none` models
no file being written. -/
def saveMeta (g : ZMG) : Option (List (String × ModData)) :=
  if g.mod_data.isEmpty then none else some g.mod_data

/-- `load(meta_path=...)`: a fresh instance; if the metadata file exists its
dict is loaded and `_build_graph` reconstructs the topology, otherwise the
instance stays empty. -/
def loadMeta (doc : Option (List (String × ModData))) : ZMG :=
  match doc with
  | none => ⟨⟨[], []⟩, []⟩
  | some md => ⟨buildGraph md, md⟩

/-- `save(graphml_path=...)` with a valid `.graphml` path: unlike the
metadata artifact there is no truthiness guard — `self.graph` is always
written.  The artifact's content is the topology itself; igraph's
byte-level GraphML encoding is the external library's concern. -/
def saveGraphml (g : ZMG) : MGraph := g.graph

/-- `load(graphml_path=...)` on an existing valid artifact: a fresh
instance whose `graph` is the deserialized topology, placed there
unchanged; `mod_data` stays the empty dict (it is not reconstructed from
the topology). -/
def loadGraphml (doc : MGraph) : ZMG := ⟨doc, []⟩

/-- Query-time errors raised by the graph lookups (`ValueError` in the
source, split by message) and by `delete_mod`. -/
inductive GraphErr where
  | notFound
  | ambiguous
  | deleteConflict
deriving DecidableEq, Repr

/-- The shared identifier-resolution prologue of `get_dependencies` /
`get_dependents`: exact `name` match first, else case-insensitive
`mod_name` match (one hit proceeds, several are ambiguous, zero is
not-found). -/
def resolveIdentifier (G : MGraph) (ident : String) : Except GraphErr Nat :=
  if ident ∈ namesOf G.vs then
    match findIdxName G.vs ident with
    | some i => Except.ok i
    | none => Except.error GraphErr.notFound
  else
    match (G.vs.enum.filter
        (fun p => p.2.mod_name.toLower = ident.toLower)).map Prod.fst with
    | [i] => Except.ok i
    | [] => Except.error GraphErr.notFound
    | _ => Except.error GraphErr.ambiguous

/-- `get_dependents(identifier)`: names of the predecessor vertices of the
resolved vertex. -/
def getDependents (G : MGraph) (ident : String) : Except GraphErr (List String) :=
  match resolveIdentifier G ident with
  | Except.error e => Except.error e
  | Except.ok i =>
    Except.ok ((G.es.filter (fun e => e.2 = i)).map
      (fun e => ((G.vs.get? e.1).map (·.name)).getD ""))

/-- `delete_mod(identifier, force)` from `zomboid_mod_manager.py`: fetch the
dependents, raise on a conflict without `force`, and otherwise return
`True` — the function body contains no removal of any vertex, edge, config
entry or metadata, so the state comes back untouched. -/
def deleteMod (g : ZMG) (ident : String) (force : Bool) :
    Except GraphErr (Bool × ZMG) :=
  match getDependents g.graph ident with
  | Except.error e => Except.error e
  | Except.ok deps =>
    if ¬deps.isEmpty ∧ ¬force then Except.error GraphErr.deleteConflict
    else Except.ok (true, g)

/-! ## Concrete graph fixtures -/

/-- Metadata for a root mod `"1"` that requires mod `"2"`. -/
def rootMeta : ModData := ⟨"u1", "Root", "1", ["r"], ["2"]⟩

/-- Graph state produced by merging `rootMeta` alone into an empty graph:
node `"1"`, stub node `"2"`, and the edge `1 → 2`; `mod_data` holds only
`"1"`. -/
def gStub : ZMG := updateByMetadata ⟨⟨[], []⟩, []⟩ [("1", rootMeta)]

/-- A fully resolved two-mod batch (no stub-only nodes). -/
def mdFull : List (String × ModData) :=
  [("1", rootMeta), ("2", ⟨"u2", "Dep", "2", ["d"], []⟩)]

/-- C7 counterexample: `gStub`'s graph contains the stub node `"2"` and the
edge `1 → 2`, but saving the metadata artifact and loading it back loses
both — `_build_graph` only creates vertices for `mod_data` keys and drops
`required` entries that are not keys — so the node set and edge set are not
preserved. -/
theorem C7_counterexample :
    "2" ∈ namesOf gStub.graph.vs ∧ (0, 1) ∈ gStub.graph.es ∧
    "2" ∉ namesOf (loadMeta (saveMeta gStub)).graph.vs ∧
    (loadMeta (saveMeta gStub)).graph.es = [] := by
  decide

/-- C7 (amended): save-then-load through the **graphml artifact** alone
yields a graph with exactly the same node set and edge set for every state,
including stub nodes and the edges pointing to them — `load` places the
deserialized topology in the fresh instance unchanged.  Save-then-load
through the **metadata document** alone restores the state *when* (a
sufficient condition) `mod_data` is nonempty and the graph equals the one
`_build_graph` derives from it — in particular whenever every node,
dependency targets included, has a metadata entry; stub nodes present only
in the graph, and the edges into them, are lost through that artifact. -/
theorem C7_amended_roundtrip :
    (∀ g : ZMG, (loadGraphml (saveGraphml g)).graph = g.graph) ∧
    (∀ g : ZMG, g.mod_data ≠ [] → g.graph = buildGraph g.mod_data →
      loadMeta (saveMeta g) = g) := by
  constructor
  · intro g
    rfl
  · intro g hne hg
    obtain ⟨G, md⟩ := g
    simp only at hne hg
    unfold saveMeta loadMeta
    simp only
    rw [if_neg (by simpa [List.isEmpty_iff] using hne)]
    simp [hg]

/-- Witness for the amended C7: the stub-carrying state `gStub` survives
the graphml round trip with node and edge sets intact, and the fully
resolved two-mod state survives the metadata round trip. -/
theorem C7_amended_witness :
    (loadGraphml (saveGraphml gStub)).graph = gStub.graph ∧
    loadMeta (saveMeta ⟨buildGraph mdFull, mdFull⟩)
      = (⟨buildGraph mdFull, mdFull⟩ : ZMG) :=
  ⟨C7_amended_roundtrip.1 gStub,
   C7_amended_roundtrip.2 ⟨buildGraph mdFull, mdFull⟩ (by decide) rfl⟩

/-- C8: `delete_mod` never removes anything.  On the graph `{1 → 2}`, where
node `"2"` has dependent `"1"`: without `force` the call is rejected
(`DeleteConflict`) and the state is unchanged — but with `force` the call
returns success `True` while the node `"2"`, its incoming edge, the config
entries and the metadata all remain exactly as before; the function body
performs no removal at all. -/
theorem C8_delete_mod_removes_nothing :
    deleteMod gStub "2" false = Except.error GraphErr.deleteConflict ∧
    deleteMod gStub "2" true = Except.ok (true, gStub) ∧
    "2" ∈ namesOf gStub.graph.vs ∧ (0, 1) ∈ gStub.graph.es :=
  ⟨by rfl, by rfl, by decide, by decide⟩

/-! ## Lemmas about the graph primitives, towards merge idempotence (C6) -/

theorem vertexAt_name {vs : List GVertex} {n : String} {v : GVertex}
    (h : vertexAt vs n = some v) : v.name = n := by
  induction vs with
  | nil => simp [vertexAt] at h
  | cons w rest ih =>
    by_cases hw : w.name = n
    · simp [vertexAt, hw] at h
      rw [← h]
      exact hw
    · simp [vertexAt, hw] at h
      exact ih h

theorem vertexAt_isSome_iff_mem (vs : List GVertex) (n : String) :
    (vertexAt vs n).isSome ↔ n ∈ namesOf vs := by
  induction vs with
  | nil => simp [vertexAt, namesOf]
  | cons w rest ih =>
    by_cases hw : w.name = n
    · simp [vertexAt, namesOf, hw, ih]
    · have hw' : ¬(n = w.name) := fun h => hw h.symm
      simp [vertexAt, namesOf, hw, hw', ih]

theorem findIdxName_isSome_iff_mem (vs : List GVertex) (n : String) :
    (findIdxName vs n).isSome ↔ n ∈ namesOf vs := by
  induction vs with
  | nil => simp [findIdxName, namesOf]
  | cons w rest ih =>
    by_cases hw : w.name = n
    · simp [findIdxName, namesOf, hw, ih]
    · have hw' : ¬(n = w.name) := fun h => hw h.symm
      simp [findIdxName, namesOf, hw, hw', ih]

theorem vertexAt_append_of_some {vs : List GVertex} {n : String} {v : GVertex}
    (ws : List GVertex) (h : vertexAt vs n = some v) :
    vertexAt (vs ++ ws) n = some v := by
  induction vs with
  | nil => simp [vertexAt] at h
  | cons w rest ih =>
    by_cases hw : w.name = n
    · simp [vertexAt, hw] at h ⊢
      exact h
    · simp [vertexAt, hw] at h ⊢
      exact ih h

theorem vertexAt_append_none {vs : List GVertex} {n : String}
    (x : GVertex) (h : vertexAt vs n = none) :
    vertexAt (vs ++ [x]) n = if x.name = n then some x else none := by
  induction vs with
  | nil => simp [vertexAt]
  | cons w rest ih =>
    by_cases hw : w.name = n
    · simp [vertexAt, hw] at h
    · simp [vertexAt, hw] at h ⊢
      exact ih h

theorem findIdxName_append_of_some {vs : List GVertex} {n : String} {i : Nat}
    (ws : List GVertex) (h : findIdxName vs n = some i) :
    findIdxName (vs ++ ws) n = some i := by
  induction vs generalizing i with
  | nil => simp [findIdxName] at h
  | cons w rest ih =>
    by_cases hw : w.name = n
    · simp [findIdxName, hw] at h ⊢
      exact h
    · simp [findIdxName, hw] at h ⊢
      obtain ⟨j, hj, rfl⟩ := h
      exact ⟨j, ih hj, rfl⟩

theorem setVertexAttrs_names (vs : List GVertex) (n : String) (d : ModData) :
    namesOf (setVertexAttrs vs n d) = namesOf vs := by
  induction vs with
  | nil => simp [setVertexAttrs]
  | cons w rest ih =>
    by_cases hw : w.name = n <;> simp [setVertexAttrs, namesOf, hw] <;>
      simpa [namesOf] using ih

theorem setVertexAttrs_self_id {vs : List GVertex} {n : String} {d : ModData}
    (h : vertexAt vs n = some ⟨n, d.mod_name, d.url, d.mod_id⟩) :
    setVertexAttrs vs n d = vs := by
  induction vs with
  | nil => simp [setVertexAttrs]
  | cons w rest ih =>
    by_cases hw : w.name = n
    · simp [vertexAt, hw] at h
      simp [setVertexAttrs, hw, ← h]
    · simp [vertexAt, hw] at h
      simp [setVertexAttrs, hw, ih h]

theorem vertexAt_setVertexAttrs_self {vs : List GVertex} {n : String}
    {d : ModData} {v : GVertex} (h : vertexAt vs n = some v) :
    vertexAt (setVertexAttrs vs n d) n
      = some ⟨n, d.mod_name, d.url, d.mod_id⟩ := by
  induction vs with
  | nil => simp [vertexAt] at h
  | cons w rest ih =>
    by_cases hw : w.name = n
    · simp [setVertexAttrs, vertexAt, hw]
    · simp [vertexAt, hw] at h
      simp [setVertexAttrs, vertexAt, hw]
      exact ih h

theorem vertexAt_setVertexAttrs_ne {m n : String} (vs : List GVertex)
    (d : ModData) (hmn : m ≠ n) :
    vertexAt (setVertexAttrs vs n d) m = vertexAt vs m := by
  induction vs with
  | nil => simp [setVertexAttrs]
  | cons w rest ih =>
    by_cases hw : w.name = n
    · have hnm : ¬(n = m) := fun h => hmn h.symm
      have : ¬(w.name = m) := by
        rw [hw]
        exact fun hc => hmn hc.symm
      simp [setVertexAttrs, vertexAt, hw, hnm, this, ih]
    · simp [setVertexAttrs, vertexAt, hw, ih]

theorem findIdxName_setVertexAttrs (vs : List GVertex) (n m : String)
    (d : ModData) :
    findIdxName (setVertexAttrs vs n d) m = findIdxName vs m := by
  induction vs with
  | nil => simp [setVertexAttrs]
  | cons w rest ih =>
    by_cases hw : w.name = n
    · simp [setVertexAttrs, findIdxName, hw, ih]
    · simp [setVertexAttrs, findIdxName, hw, ih]

theorem ensureStub_es (G : MGraph) (dep : String) :
    (ensureStub G dep).es = G.es := by
  unfold ensureStub
  split <;> rfl

theorem ensureStub_vs (G : MGraph) (dep : String) :
    (ensureStub G dep).vs = G.vs ∨
    (ensureStub G dep).vs = G.vs ++ [⟨dep, "", "", []⟩] := by
  unfold ensureStub
  split
  · exact Or.inl rfl
  · exact Or.inr rfl

theorem ensureStub_mem (G : MGraph) (dep : String) :
    dep ∈ namesOf (ensureStub G dep).vs := by
  unfold ensureStub
  split
  · assumption
  · simp [namesOf]

theorem edgeCore_vs (G1 : MGraph) (wid dep : String) :
    (edgeCore G1 wid dep).vs = G1.vs := by
  unfold edgeCore
  split
  · split <;> rfl
  · rfl

theorem edgeCore_es_mono (G1 : MGraph) (wid dep : String) :
    ∃ extra, (edgeCore G1 wid dep).es = G1.es ++ extra := by
  unfold edgeCore
  split
  · split
    · exact ⟨[], by simp⟩
    · exact ⟨_, rfl⟩
  · exact ⟨[], by simp⟩

theorem edgeCore_post {G1 : MGraph} {wid dep : String} {si ti : Nat}
    (h1 : findIdxName G1.vs wid = some si)
    (h2 : findIdxName G1.vs dep = some ti) :
    (si, ti) ∈ (edgeCore G1 wid dep).es := by
  unfold edgeCore
  rw [h1, h2]
  by_cases he : (si, ti) ∈ G1.es
  · simpa [he] using he
  · simp [he]

theorem edgeCore_id {G1 : MGraph} {wid dep : String} {si ti : Nat}
    (h1 : findIdxName G1.vs wid = some si)
    (h2 : findIdxName G1.vs dep = some ti)
    (he : (si, ti) ∈ G1.es) :
    edgeCore G1 wid dep = G1 := by
  unfold edgeCore
  rw [h1, h2]
  simp [he]

theorem addEdgeFor_id {G : MGraph} {wid dep : String} {si ti : Nat}
    (hdep : dep ∈ namesOf G.vs)
    (h1 : findIdxName G.vs wid = some si)
    (h2 : findIdxName G.vs dep = some ti)
    (he : (si, ti) ∈ G.es) :
    addEdgeFor G wid dep = G := by
  unfold addEdgeFor
  have hs : ensureStub G dep = G := by
    unfold ensureStub
    simp [hdep]
  rw [hs]
  exact edgeCore_id h1 h2 he

theorem addEdgeFor_vertexAt {G : MGraph} {m : String} {v : GVertex}
    (wid dep : String) (h : vertexAt G.vs m = some v) :
    vertexAt (addEdgeFor G wid dep).vs m = some v := by
  unfold addEdgeFor
  rw [edgeCore_vs]
  rcases ensureStub_vs G dep with hvs | hvs <;> rw [hvs]
  · exact h
  · exact vertexAt_append_of_some _ h

theorem addEdgeFor_findIdx {G : MGraph} {m : String} {i : Nat}
    (wid dep : String) (h : findIdxName G.vs m = some i) :
    findIdxName (addEdgeFor G wid dep).vs m = some i := by
  unfold addEdgeFor
  rw [edgeCore_vs]
  rcases ensureStub_vs G dep with hvs | hvs <;> rw [hvs]
  · exact h
  · exact findIdxName_append_of_some _ h

theorem addEdgeFor_mem_names {G : MGraph} {m : String}
    (wid dep : String) (h : m ∈ namesOf G.vs) :
    m ∈ namesOf (addEdgeFor G wid dep).vs := by
  unfold addEdgeFor
  rw [edgeCore_vs]
  rcases ensureStub_vs G dep with hvs | hvs <;> rw [hvs]
  · exact h
  · simp only [namesOf, List.map_append, List.mem_append]
    exact Or.inl h

theorem addEdgeFor_es_mono {G : MGraph} {e : Nat × Nat}
    (wid dep : String) (h : e ∈ G.es) :
    e ∈ (addEdgeFor G wid dep).es := by
  unfold addEdgeFor
  obtain ⟨extra, hes⟩ := edgeCore_es_mono (ensureStub G dep) wid dep
  rw [hes, ensureStub_es]
  exact List.mem_append_left _ h

theorem addEdgeFor_post (G : MGraph) (wid dep : String)
    (h : (findIdxName G.vs wid).isSome) :
    ∃ si ti,
      dep ∈ namesOf (addEdgeFor G wid dep).vs ∧
      findIdxName (addEdgeFor G wid dep).vs wid = some si ∧
      findIdxName (addEdgeFor G wid dep).vs dep = some ti ∧
      (si, ti) ∈ (addEdgeFor G wid dep).es := by
  have hvs : (addEdgeFor G wid dep).vs = (ensureStub G dep).vs := by
    unfold addEdgeFor
    exact edgeCore_vs _ _ _
  have hwid : (findIdxName (ensureStub G dep).vs wid).isSome := by
    rcases ensureStub_vs G dep with hv | hv <;> rw [hv]
    · exact h
    · obtain ⟨i, hi⟩ := Option.isSome_iff_exists.mp h
      exact Option.isSome_iff_exists.mpr ⟨i, findIdxName_append_of_some _ hi⟩
  have hdep : (findIdxName (ensureStub G dep).vs dep).isSome :=
    (findIdxName_isSome_iff_mem _ _).mpr (ensureStub_mem G dep)
  obtain ⟨si, hsi⟩ := Option.isSome_iff_exists.mp hwid
  obtain ⟨ti, hti⟩ := Option.isSome_iff_exists.mp hdep
  refine ⟨si, ti, ?_, ?_, ?_, ?_⟩
  · rw [hvs]
    exact (findIdxName_isSome_iff_mem _ _).mp (Option.isSome_iff_exists.mpr ⟨ti, hti⟩)
  · rw [hvs]
    exact hsi
  · rw [hvs]
    exact hti
  · unfold addEdgeFor
    exact edgeCore_post hsi hti

/-- The dependency fold of one `update_by_metadata` entry. -/
def foldDeps (wid : String) (deps : List String) (G : MGraph) : MGraph :=
  deps.foldl (fun G dep => addEdgeFor G wid dep) G

theorem foldDeps_vertexAt {m : String} {v : GVertex} (wid : String)
    (deps : List String) (G : MGraph) (h : vertexAt G.vs m = some v) :
    vertexAt (foldDeps wid deps G).vs m = some v := by
  induction deps generalizing G with
  | nil => exact h
  | cons dep rest ih => exact ih _ (addEdgeFor_vertexAt wid dep h)

theorem foldDeps_findIdx {m : String} {i : Nat} (wid : String)
    (deps : List String) (G : MGraph) (h : findIdxName G.vs m = some i) :
    findIdxName (foldDeps wid deps G).vs m = some i := by
  induction deps generalizing G with
  | nil => exact h
  | cons dep rest ih => exact ih _ (addEdgeFor_findIdx wid dep h)

theorem foldDeps_mem_names {m : String} (wid : String)
    (deps : List String) (G : MGraph) (h : m ∈ namesOf G.vs) :
    m ∈ namesOf (foldDeps wid deps G).vs := by
  induction deps generalizing G with
  | nil => exact h
  | cons dep rest ih => exact ih _ (addEdgeFor_mem_names wid dep h)

theorem foldDeps_es_mono {e : Nat × Nat} (wid : String)
    (deps : List String) (G : MGraph) (h : e ∈ G.es) :
    e ∈ (foldDeps wid deps G).es := by
  induction deps generalizing G with
  | nil => exact h
  | cons dep rest ih => exact ih _ (addEdgeFor_es_mono wid dep h)

theorem foldDeps_post (wid : String) (deps : List String) (G : MGraph)
    (h : (findIdxName G.vs wid).isSome) :
    ∀ dep ∈ deps, ∃ si ti,
      dep ∈ namesOf (foldDeps wid deps G).vs ∧
      findIdxName (foldDeps wid deps G).vs wid = some si ∧
      findIdxName (foldDeps wid deps G).vs dep = some ti ∧
      (si, ti) ∈ (foldDeps wid deps G).es := by
  induction deps generalizing G with
  | nil => intro dep hdep; simp at hdep
  | cons d0 rest ih =>
    intro dep hdep
    obtain ⟨i, hi⟩ := Option.isSome_iff_exists.mp h
    have hwid' : (findIdxName (addEdgeFor G wid d0).vs wid).isSome :=
      Option.isSome_iff_exists.mpr ⟨i, addEdgeFor_findIdx wid d0 hi⟩
    rcases List.mem_cons.mp hdep with rfl | hrest
    · obtain ⟨si, ti, hm, hw, hd, he⟩ := addEdgeFor_post G wid dep h
      refine ⟨si, ti, ?_, ?_, ?_, ?_⟩
      · exact foldDeps_mem_names wid rest _ hm
      · exact foldDeps_findIdx wid rest _ hw
      · exact foldDeps_findIdx wid rest _ hd
      · exact foldDeps_es_mono wid rest _ he
    · exact ih _ hwid' dep hrest

/-- The batch entry `(wid, d)` is fully absorbed in the state `g`: its
metadata is stored, its vertex carries exactly the batch attributes, and
every `required` edge is present. -/
def entryAbsorbed (g : ZMG) (wid : String) (d : ModData) : Prop :=
  alookup wid g.mod_data = some d ∧
  vertexAt g.graph.vs wid = some ⟨wid, d.mod_name, d.url, d.mod_id⟩ ∧
  ∀ dep ∈ d.required, ∃ si ti,
    dep ∈ namesOf g.graph.vs ∧
    findIdxName g.graph.vs wid = some si ∧
    findIdxName g.graph.vs dep = some ti ∧
    (si, ti) ∈ g.graph.es

theorem foldDeps_id {wid : String} {deps : List String} {G : MGraph}
    (h : ∀ dep ∈ deps, ∃ si ti,
      dep ∈ namesOf G.vs ∧ findIdxName G.vs wid = some si ∧
      findIdxName G.vs dep = some ti ∧ (si, ti) ∈ G.es) :
    foldDeps wid deps G = G := by
  induction deps with
  | nil => rfl
  | cons d0 rest ih =>
    obtain ⟨si, ti, hm, hw, hd, he⟩ := h d0 (List.mem_cons_self d0 rest)
    have h0 : addEdgeFor G wid d0 = G := addEdgeFor_id hm hw hd he
    show foldDeps wid rest (addEdgeFor G wid d0) = G
    rw [h0]
    exact ih fun dep hdep => h dep (List.mem_cons_of_mem _ hdep)

theorem stepEntry_id {g : ZMG} {wid : String} {d : ModData}
    (h : entryAbsorbed g wid d) : stepEntry g wid d = g := by
  obtain ⟨hmd, hv, hdeps⟩ := h
  have hmem : wid ∈ namesOf g.graph.vs :=
    (vertexAt_isSome_iff_mem _ _).mp (by rw [hv]; rfl)
  unfold stepEntry
  simp only [hmem, if_true]
  have hset : setVertexAttrs g.graph.vs wid d = g.graph.vs :=
    setVertexAttrs_self_id hv
  have hG1 : ({ g.graph with vs := setVertexAttrs g.graph.vs wid d } : MGraph)
      = g.graph := by
    rw [hset]
  rw [hG1]
  have hfold : foldDeps wid d.required g.graph = g.graph := foldDeps_id hdeps
  show (⟨foldDeps wid d.required g.graph, dictInsert wid d g.mod_data⟩ : ZMG) = g
  rw [hfold, dictInsert_self _ _ _ hmd]

theorem stepEntry_absorbs (g : ZMG) (wid : String) (d : ModData) :
    entryAbsorbed (stepEntry g wid d) wid d := by
  unfold stepEntry
  by_cases hmem : wid ∈ namesOf g.graph.vs
  · simp only [hmem, if_true]
    obtain ⟨v, hv⟩ := Option.isSome_iff_exists.mp
      ((vertexAt_isSome_iff_mem _ _).mpr hmem)
    have hv1 : vertexAt (setVertexAttrs g.graph.vs wid d) wid
        = some ⟨wid, d.mod_name, d.url, d.mod_id⟩ :=
      vertexAt_setVertexAttrs_self hv
    refine ⟨alookup_dictInsert_self _ _ _, ?_, ?_⟩
    · exact foldDeps_vertexAt wid d.required _ hv1
    · have hsome : (findIdxName ({ g.graph with
          vs := setVertexAttrs g.graph.vs wid d } : MGraph).vs wid).isSome := by
        show (findIdxName (setVertexAttrs g.graph.vs wid d) wid).isSome
        rw [findIdxName_isSome_iff_mem, setVertexAttrs_names]
        exact hmem
      exact foldDeps_post wid d.required _ hsome
  · simp only [hmem, if_false]
    have hnone : vertexAt g.graph.vs wid = none := by
      rcases hva : vertexAt g.graph.vs wid with _ | v
      · rfl
      · exact absurd ((vertexAt_isSome_iff_mem _ _).mp (by rw [hva]; rfl)) hmem
    have hv1 : vertexAt (g.graph.vs ++ [⟨wid, d.mod_name, d.url, d.mod_id⟩]) wid
        = some ⟨wid, d.mod_name, d.url, d.mod_id⟩ := by
      rw [vertexAt_append_none _ hnone]
      simp
    refine ⟨alookup_dictInsert_self _ _ _, ?_, ?_⟩
    · exact foldDeps_vertexAt wid d.required _ hv1
    · have hsome : (findIdxName ({ g.graph with
          vs := g.graph.vs ++ [⟨wid, d.mod_name, d.url, d.mod_id⟩] } : MGraph).vs
          wid).isSome := by
        show (findIdxName (g.graph.vs ++ [⟨wid, d.mod_name, d.url, d.mod_id⟩])
          wid).isSome
        rw [findIdxName_isSome_iff_mem]
        simp [namesOf]
      exact foldDeps_post wid d.required _ hsome

theorem stepEntry_preserves {g : ZMG} {wid : String} {d : ModData}
    (wid' : String) (d' : ModData) (hne : wid' ≠ wid)
    (h : entryAbsorbed g wid d) :
    entryAbsorbed (stepEntry g wid' d') wid d := by
  obtain ⟨hmd, hv, hdeps⟩ := h
  unfold stepEntry
  by_cases hmem : wid' ∈ namesOf g.graph.vs
  · simp only [hmem, if_true]
    have hv1 : vertexAt (setVertexAttrs g.graph.vs wid' d') wid
        = some ⟨wid, d.mod_name, d.url, d.mod_id⟩ := by
      rw [vertexAt_setVertexAttrs_ne _ _ (fun hc => hne hc.symm)]
      exact hv
    refine ⟨?_, ?_, ?_⟩
    · exact (alookup_dictInsert_ne wid wid' hne d' g.mod_data).trans hmd
    · exact foldDeps_vertexAt wid' d'.required _ hv1
    · intro dep hdep
      obtain ⟨si, ti, hm, hw, hd, he⟩ := hdeps dep hdep
      refine ⟨si, ti, ?_, ?_, ?_, ?_⟩
      · refine foldDeps_mem_names wid' d'.required _ ?_
        show dep ∈ namesOf (setVertexAttrs g.graph.vs wid' d')
        rw [setVertexAttrs_names]
        exact hm
      · refine foldDeps_findIdx wid' d'.required _ ?_
        show findIdxName (setVertexAttrs g.graph.vs wid' d') wid = some si
        rw [findIdxName_setVertexAttrs]
        exact hw
      · refine foldDeps_findIdx wid' d'.required _ ?_
        show findIdxName (setVertexAttrs g.graph.vs wid' d') dep = some ti
        rw [findIdxName_setVertexAttrs]
        exact hd
      · exact foldDeps_es_mono wid' d'.required _ he
  · simp only [hmem, if_false]
    have hv1 : vertexAt (g.graph.vs ++ [⟨wid', d'.mod_name, d'.url, d'.mod_id⟩])
        wid = some ⟨wid, d.mod_name, d.url, d.mod_id⟩ :=
      vertexAt_append_of_some _ hv
    refine ⟨?_, ?_, ?_⟩
    · exact (alookup_dictInsert_ne wid wid' hne d' g.mod_data).trans hmd
    · exact foldDeps_vertexAt wid' d'.required _ hv1
    · intro dep hdep
      obtain ⟨si, ti, hm, hw, hd, he⟩ := hdeps dep hdep
      refine ⟨si, ti, ?_, ?_, ?_, ?_⟩
      · refine foldDeps_mem_names wid' d'.required _ ?_
        show dep ∈ namesOf (g.graph.vs ++ [⟨wid', d'.mod_name, d'.url, d'.mod_id⟩])
        simp only [namesOf, List.map_append, List.mem_append]
        exact Or.inl hm
      · exact foldDeps_findIdx wid' d'.required _ (findIdxName_append_of_some _ hw)
      · exact foldDeps_findIdx wid' d'.required _ (findIdxName_append_of_some _ hd)
      · exact foldDeps_es_mono wid' d'.required _ he

theorem updateByMetadata_preserves {g : ZMG} {wid : String} {d : ModData}
    (batch : List (String × ModData)) (hne : ∀ p ∈ batch, p.1 ≠ wid)
    (h : entryAbsorbed g wid d) :
    entryAbsorbed (updateByMetadata g batch) wid d := by
  induction batch generalizing g with
  | nil => exact h
  | cons p rest ih =>
    exact ih (fun q hq => hne q (List.mem_cons_of_mem _ hq))
      (stepEntry_preserves p.1 p.2 (hne p (List.mem_cons_self p rest)) h)

theorem updateByMetadata_absorbs (g : ZMG) (batch : List (String × ModData))
    (hnd : (batch.map Prod.fst).Nodup) :
    ∀ p ∈ batch, entryAbsorbed (updateByMetadata g batch) p.1 p.2 := by
  induction batch generalizing g with
  | nil => intro p hp; simp at hp
  | cons q rest ih =>
    intro p hp
    simp only [List.map_cons, List.nodup_cons] at hnd
    rcases List.mem_cons.mp hp with rfl | hrest
    · show entryAbsorbed (updateByMetadata (stepEntry g p.1 p.2) rest) p.1 p.2
      refine updateByMetadata_preserves rest ?_ (stepEntry_absorbs g p.1 p.2)
      intro q hq hqeq
      exact hnd.1 (hqeq ▸ List.mem_map_of_mem Prod.fst hq)
    · exact ih (stepEntry g q.1 q.2) hnd.2 p hrest

theorem updateByMetadata_id {g : ZMG} {batch : List (String × ModData)}
    (h : ∀ p ∈ batch, entryAbsorbed g p.1 p.2) :
    updateByMetadata g batch = g := by
  induction batch with
  | nil => rfl
  | cons p rest ih =>
    show updateByMetadata (stepEntry g p.1 p.2) rest = g
    rw [stepEntry_id (h p (List.mem_cons_self p rest))]
    exact ih fun q hq => h q (List.mem_cons_of_mem _ hq)

/-- C6: `update_by_metadata` is idempotent.  For every graph state and every
metadata batch (with the Python-dict guarantee of distinct keys), merging
the same batch a second time changes nothing: not the node list, not the
edge list, not any node attribute, not the stored metadata. -/
theorem C6_update_by_metadata_idempotent (g : ZMG)
    (batch : List (String × ModData)) (hnd : (batch.map Prod.fst).Nodup) :
    updateByMetadata (updateByMetadata g batch) batch
      = updateByMetadata g batch :=
  updateByMetadata_id (updateByMetadata_absorbs g batch hnd)

/-- Witness for C6 on the concrete two-mod batch merged into the empty
state. -/
theorem C6_witness :
    updateByMetadata (updateByMetadata ⟨⟨[], []⟩, []⟩ mdFull) mdFull
      = updateByMetadata ⟨⟨[], []⟩, []⟩ mdFull :=
  C6_update_by_metadata_idempotent ⟨⟨[], []⟩, []⟩ mdFull (by decide)

/-! ## Dependency resolver
(`src/zomboid_misc/mod_manager/zomboid_mod_manager.py`) -/

/-- `takeDigits`: longest leading digit run, the `(\d+)` capture. -/
def takeDigits : List Char → List Char
  | [] => []
  | c :: rest => if c.isDigit then c :: takeDigits rest else []

/-- `re.search(r"id=(\d+)", url)`: scan left to right for `id=` followed by
at least one digit and return the digit run, or `""` when there is no
match. -/
def searchIdChars : List Char → List Char
  | [] => []
  | c :: rest =>
    if c = 'i' then
      match rest with
      | 'd' :: '=' :: rest2 =>
        (match rest2 with
         | c2 :: _ => if c2.isDigit then takeDigits rest2 else searchIdChars rest
         | [] => [])
      | _ => searchIdChars rest
    else searchIdChars rest

/-- `get_workshop_id(url)`: the numeric id from the URL or `""`. -/
def getWorkshopId (url : String) : String :=
  String.mk (searchIdChars url.toList)

/-- Outcome of one `requests.get` + BeautifulSoup parse of a catalog page:
the title, the parsed internal mod ids, and the `RequiredItems` anchor
hrefs — or a `requests.Timeout`. -/
inductive FetchResult where
  | page (title : String) (modIds : List String) (hrefs : List String)
  | timeout
deriving DecidableEq, Repr

/-- The network oracle: what fetching a URL returns on its k-th attempt. -/
abbrev Catalog := String → Nat → FetchResult

/-- Resolver-side mutable state: `self.timed_out_url` plus the per-URL
attempt counter that drives the oracle. -/
structure RState where
  timedOut : List String
  attempts : List (String × Nat)
deriving DecidableEq, Repr

/-- The accumulated `mod_metadata` dict. -/
abbrev MM := List (String × ModData)

def getAtt (s : RState) (u : String) : Nat := (alookup u s.attempts).getD 0

def bumpAtt (s : RState) (u : String) : RState :=
  { s with attempts := dictInsert u (getAtt s u + 1) s.attempts }

/-- Result of a `_request_required_mod` call: a normal return (`None` or the
dict) with the resolver state, or an uncaught exception (the `TypeError`
from `href not in None` after a timed-out recursive call, or a missing-key
access). -/
inductive RRes where
  | ok (md : Option MM) (s : RState)
  | exn (s : RState)
deriving DecidableEq, Repr

/-- `mod_metadata[child].setdefault("required", []).append(wid)`: `none`
models the `KeyError` when `child` is not a key. -/
def appendReq (child wid : String) : MM → Option MM
  | [] => none
  | (k, v) :: rest =>
    if k = child then
      some ((k, { v with required := v.required ++ [wid] }) :: rest)
    else
      (appendReq child wid rest).map (fun r => (k, v) :: r)

/-- `_request_required_mod(mod_url, mod_metadata, child_workshop_id)`: fetch
the page (consuming one oracle attempt); on `Timeout` record the URL in
`timed_out_url` and fall through to an implicit `return None`; on success
store this item's metadata, append its id to the child's `required` list
(skipped for a falsy `child_workshop_id`), and run the
`for item in container.find_all("a")` loop over the `RequiredItems` hrefs:
falsy hrefs are skipped, hrefs already present as keys are skipped
(`href not in mod_metadata` — note it compares a URL against workshop-id
keys), and the recursion's return value *replaces* the accumulated dict;
when that value is `None` the next membership test raises `TypeError`
(the absorbing `Sum.inr` state), which propagates out uncaught.  `fuel`
only bounds the modelled recursion depth. -/
def requestRequiredMod (cat : Catalog) :
    Nat → String → Option MM → Option String → RState → RRes
  | 0, _, _, _, s => RRes.exn s
  | Nat.succ fuel', url, accOpt, child, s =>
    let acc := accOpt.getD []
    let k := getAtt s url
    let s1 := bumpAtt s url
    match cat url k with
    | FetchResult.timeout =>
      RRes.ok none
        { s1 with
          timedOut :=
            if url ∈ s1.timedOut then s1.timedOut else s1.timedOut ++ [url] }
    | FetchResult.page title modIds hrefs =>
      let wid := getWorkshopId url
      let acc1 := dictInsert wid ⟨url, title, wid, modIds, []⟩ acc
      let withChild : Option MM :=
        match child with
        | some c => if c = "" then some acc1 else appendReq c wid acc1
        | none => some acc1
      match withChild with
      | none => RRes.exn s1
      | some acc2 =>
        match hrefs.foldl
            (fun st h =>
              match st with
              | Sum.inr sExn => Sum.inr sExn
              | Sum.inl (mdOpt, s2) =>
                if h = "" then Sum.inl (mdOpt, s2)
                else
                  match mdOpt with
                  | none => Sum.inr s2
                  | some md =>
                    if (alookup h md).isSome then Sum.inl (some md, s2)
                    else
                      match requestRequiredMod cat fuel' h (some md) (some wid) s2 with
                      | RRes.exn s3 => Sum.inr s3
                      | RRes.ok md3 s3 => Sum.inl (md3, s3))
            (Sum.inl (some acc2, s1) : (Option MM × RState) ⊕ RState) with
        | Sum.inl (mdOpt, s2) => RRes.ok mdOpt s2
        | Sum.inr s2 => RRes.exn s2

/-- Python truthiness of `mod_metadata` (`if mod_metadata: break`): `None`
and the empty dict are falsy. -/
def truthyMM : Option MM → Bool
  | none => false
  | some m => !m.isEmpty

/-- The `for url in retry_urls` loop of `get_required_mod`: each pending URL
is re-requested **with a fresh accumulator**, the result *replaces*
`mod_metadata`, and the loop breaks on the first truthy result. -/
def innerRetry (cat : Catalog) (fuel : Nat) :
    List String → Option MM → RState → RRes
  | [], md, s => RRes.ok md s
  | u :: rest, _, s =>
    match requestRequiredMod cat fuel u none none s with
    | RRes.exn s' => RRes.exn s'
    | RRes.ok md' s' =>
      if truthyMM md' then RRes.ok md' s' else innerRetry cat fuel rest md' s'

/-- The `for _ in range(n_retry)` loop: stop early when no URL is pending,
otherwise copy-and-clear `timed_out_url` and run the inner retry loop. -/
def retryRounds (cat : Catalog) (fuel : Nat) :
    Nat → Option MM → RState → RRes
  | 0, md, s => RRes.ok md s
  | Nat.succ n, md, s =>
    if s.timedOut.isEmpty then RRes.ok md s
    else
      match innerRetry cat fuel s.timedOut md { s with timedOut := [] } with
      | RRes.exn s' => RRes.exn s'
      | RRes.ok md' s' => retryRounds cat fuel n md' s'

/-- `get_required_mod(mod_url, n_retry=2)`: initial pass then bounded retry
rounds. -/
def getRequiredMod (cat : Catalog) (fuel : Nat) (url : String) (nRetry : Nat)
    (s : RState) : RRes :=
  match requestRequiredMod cat fuel url none none s with
  | RRes.exn s' => RRes.exn s'
  | RRes.ok md s' => retryRounds cat fuel nRetry md s'

/-- Keys of a successful resolution result. -/
def rresKeys (r : RRes) : Option (List String) :=
  match r with
  | RRes.ok (some md) _ => some (md.map Prod.fst)
  | _ => none

/-- The C5 scenario catalog: the root page `id=1` (title `"Root"`, internal
id `"r"`) requires `id=2`; fetching `id=2` times out on the first attempt
and succeeds (title `"Dep"`, internal id `"d"`) from the second attempt
on. -/
def cat5 : Catalog := fun url k =>
  if url = "id=1" then FetchResult.page "Root" ["r"] ["id=2"]
  else if url = "id=2" then
    (if k = 0 then FetchResult.timeout else FetchResult.page "Dep" ["d"] [])
  else FetchResult.timeout

/-- C5: evaluating `get_required_mod` on the spec's own scenario — a
required item that times out on the first attempt and succeeds on retry
round 1.  The initial pass returns `None` (the timed-out recursive call's
`None` return value replaces the accumulated dict), and the retry round
calls `_request_required_mod(url)` with a **fresh** accumulator, so the
final mapping holds only the retried item `"2"`: the root `"1"` and its
metadata are silently dropped, although the retried item itself is
present with full metadata. -/
theorem C5_retry_loses_accumulated_metadata :
    requestRequiredMod cat5 20 "id=1" none none ⟨[], []⟩
      = RRes.ok none ⟨["id=2"], [("id=1", 1), ("id=2", 1)]⟩ ∧
    getRequiredMod cat5 20 "id=1" 2 ⟨[], []⟩
      = RRes.ok (some [("2", ⟨"id=2", "Dep", "2", ["d"], []⟩)])
          ⟨[], [("id=1", 1), ("id=2", 2)]⟩ ∧
    rresKeys (getRequiredMod cat5 20 "id=1" 2 ⟨[], []⟩) = some ["2"] ∧
    "1" ∉ (rresKeys (getRequiredMod cat5 20 "id=1" 2 ⟨[], []⟩)).getD [] :=
  ⟨by rfl, by rfl, by rfl, by decide⟩

/-! ## `add_to_config` (`zomboid_mod_manager.py` lines 143-165) -/

/-- The list-level core of `add_to_config`: iterate the batch values in
order; any entry whose `workshop_id` is not yet in the WorkshopItems list
gets `mod_ids = metadata["mod_id"] + mod_ids` and
`workshop_ids.insert(0, ...)`; entries already present are skipped.
Membership is tested against the evolving list. -/
def addToConfigLists (ws ms : List String) (batch : List (String × ModData)) :
    List String × List String :=
  batch.foldl
    (fun p e =>
      if e.2.workshop_id ∈ p.1 then p
      else (e.2.workshop_id :: p.1, e.2.mod_id ++ p.2))
    (ws, ms)

/-- Python `s.split(sep)` for a one-character separator: split at every
occurrence, keeping empty pieces (`"".split(";") == [""]`). -/
def pySplitAux (sep : Char) : List Char → List Char → List String
  | [], acc => [String.mk acc.reverse]
  | c :: rest, acc =>
    if c = sep then String.mk acc.reverse :: pySplitAux sep rest []
    else pySplitAux sep rest (c :: acc)

def pySplit (sep : Char) (s : String) : List String :=
  pySplitAux sep s.toList []

/-- Python `sep.join(parts)`. -/
def pyJoin (sep : String) : List String → String
  | [] => ""
  | [x] => x
  | x :: rest => x ++ sep ++ pyJoin sep rest

/-- `add_to_config` on the two delimiter-joined config values: split on
`";"`, run the insertion loop, join back with `";"`. -/
def addToConfig (workshopItemsStr modsStr : String)
    (batch : List (String × ModData)) : String × String :=
  let p := addToConfigLists (pySplit ';' workshopItemsStr)
    (pySplit ';' modsStr) batch
  (pyJoin ";" p.1, pyJoin ";" p.2)

/-- A two-entry batch: mod `"10"` (internal id `a1`) before mod `"20"`
(internal id `b1`). -/
def batchAB : List (String × ModData) :=
  [("10", ⟨"uA", "A", "10", ["a1"], []⟩), ("20", ⟨"uB", "B", "20", ["b1"], []⟩)]

/-- C9 counterexample: inserting the fresh batch `["10", "20"]` into
WorkshopItems `"x"` / Mods `"m"` yields `"20;10;x"` — entry `"10"`, first
in the batch, ends up *after* `"20"` because each entry is prepended in
turn, so the inserted entries appear in reverse batch order, not in batch
order as claimed. -/
theorem C9_counterexample :
    (addToConfigLists ["x"] ["m"] batchAB).1 = ["20", "10", "x"] ∧
    (addToConfigLists ["x"] ["m"] batchAB).1.indexOf "20" = 0 ∧
    (addToConfigLists ["x"] ["m"] batchAB).1.indexOf "10" = 1 ∧
    addToConfig "x" "m" batchAB = ("20;10;x", "b1;a1;m") := by
  decide

/-- C9 (amended): each batch entry not already present is prepended — its
internal ids to the front of Mods, its catalog id to the front of
WorkshopItems — so the newly inserted entries end up in *reverse* batch
order (each entry's own internal-id list keeps its order), and entries whose
catalog id is already present are skipped without modification. -/
theorem C9_amended_front_insert_reversed :
    (∀ (ws ms : List String) (batch : List (String × ModData)),
      (∀ e ∈ batch, e.2.workshop_id ∉ ws) →
      ((batch.map (fun e => e.2.workshop_id)).Nodup) →
      addToConfigLists ws ms batch
        = ((batch.map (fun e => e.2.workshop_id)).reverse ++ ws,
           (batch.map (fun e => e.2.mod_id)).reverse.flatten ++ ms)) ∧
    (∀ (ws ms : List String) (e : String × ModData)
       (rest : List (String × ModData)),
      e.2.workshop_id ∈ ws →
      addToConfigLists ws ms (e :: rest) = addToConfigLists ws ms rest) := by
  constructor
  · intro ws ms batch hfresh hnd
    induction batch generalizing ws ms with
    | nil => simp [addToConfigLists]
    | cons e rest ih =>
      simp only [List.map_cons, List.nodup_cons] at hnd
      have hne : e.2.workshop_id ∉ ws := hfresh e (List.mem_cons_self e rest)
      have hfresh' : ∀ q ∈ rest, q.2.workshop_id ∉ e.2.workshop_id :: ws := by
        intro q hq
        simp only [List.mem_cons]
        rintro (heq | hin)
        · exact hnd.1 (heq ▸ List.mem_map_of_mem (fun e => e.2.workshop_id) hq)
        · exact hfresh q (List.mem_cons_of_mem _ hq) hin
      have step1 : addToConfigLists ws ms (e :: rest)
          = addToConfigLists (e.2.workshop_id :: ws) (e.2.mod_id ++ ms) rest := by
        unfold addToConfigLists
        rw [List.foldl_cons]
        simp [hne]
      rw [step1, ih (e.2.workshop_id :: ws) (e.2.mod_id ++ ms) hfresh' hnd.2]
      simp [List.append_assoc]
  · intro ws ms e rest hmem
    show addToConfigLists ws ms (e :: rest) = addToConfigLists ws ms rest
    unfold addToConfigLists
    simp [hmem]

/-- Witness for the amended C9 at the concrete two-entry batch. -/
theorem C9_amended_witness :
    addToConfigLists ["x"] ["m"] batchAB = (["20", "10", "x"], ["b1", "a1", "m"]) :=
  C9_amended_front_insert_reversed.1 ["x"] ["m"] batchAB (by decide) (by decide)
